import Mathlib

/-!
Shallow embedding of the section-membership, elder-consensus and chunk-replication
core of dan-da/safe_network, together with theorems checking the natural-language
specification against it.  Machine integers (u8/u64) are modelled as Nat; the
claims proved here never exercise overflow.  Async/lock structure collapses to
sequential state passing.  BLS cryptography is modelled by a validity flag on
accumulated proofs (check_and_combine_signatures succeeds iff the flag is set).
-/

namespace SafeNetwork

/-- A 256-bit node/data identifier (XorName), modelled as a natural number whose
bits are read most-significant first: bit i of the name is testBit (255 - i). -/
abbrev XorName := Nat

/-- Association-list lookup standing in for BTreeMap/HashMap get. -/
def assocLookup {β : Type} : List (XorName × β) → XorName → Option β
  | [], _ => none
  | (k, v) :: rest, x => if k = x then some v else assocLookup rest x

/-- Association-list update of an existing key (BTreeMap write through a held entry). -/
def assocUpdate {β : Type} : List (XorName × β) → XorName → β → List (XorName × β)
  | [], _, _ => []
  | (k, v) :: rest, x, w => if k = x then (k, w) :: rest else (k, v) :: assocUpdate rest x w

/-- Association-list insert-or-replace (BTreeMap/HashMap insert). -/
def assocInsert {β : Type} : List (XorName × β) → XorName → β → List (XorName × β)
  | [], x, w => [(x, w)]
  | (k, v) :: rest, x, w => if k = x then (x, w) :: rest else (k, v) :: assocInsert rest x w

/-! ## Capacity tracker (src/routing/core/capacity/mod.rs) -/

/-- The number of separate copies of a chunk which should be maintained
(CHUNK_COPY_COUNT in capacity/mod.rs). -/
def CHUNK_COPY_COUNT : Nat := 4

/-- An adult is considered full when it has reported at least this storage level
(MIN_LEVEL_WHEN_FULL in capacity/mod.rs). -/
def MIN_LEVEL_WHEN_FULL : Nat := 9

/-- The Capacity struct's adult_levels map from adult name to reported storage
level.  StorageLevel (messaging::data, not under src/) is modelled from the spec
as its raw u8 value in 0..=10; value() is the identity. -/
def Capacity := List (XorName × Nat)

/-- Capacity::set_adult_level.  Returns whether the level changed, and the new map.
The source's read-lock / write-lock double check collapses in this sequential
model to a single lookup: a recorded adult's level is overwritten only by a
strictly greater value; an unknown adult is inserted. -/
def set_adult_level (c : Capacity) (adult : XorName) (new_level : Nat) : Bool × Capacity :=
  match assocLookup c adult with
  | some current_level =>
    if new_level > current_level then (true, assocUpdate c adult new_level)
    else (false, c)
  | none => (true, assocInsert c adult new_level)

/-- Folds a sequence of set_adult_level calls over a capacity map
(Capacity::set_adult_levels iterates set_adult_level). -/
def set_adult_levels (c : Capacity) : List (XorName × Nat) → Capacity
  | [] => c
  | (a, v) :: rest => set_adult_levels (set_adult_level c a v).2 rest

/-- Capacity::is_full.  The source hits a todo!() panic when the adult has no
recorded level; the panic is modelled as none, a normal return as some. -/
def is_full (c : Capacity) (adult : XorName) : Option Bool :=
  match assocLookup c adult with
  | some level => some (decide (level ≥ MIN_LEVEL_WHEN_FULL))
  | none => none

/-! ## Register metadata (src/types/register/metadata.rs) -/

/-- Kind of a Register. -/
inductive Kind
  | Public
  | Private
deriving DecidableEq

/-- Kind::is_public. -/
def Kind.is_public (k : Kind) : Bool := decide (k = Kind.Public)

/-- Kind::is_private. -/
def Kind.is_private (k : Kind) : Bool := !k.is_public

/-- Address of a Register: a public or private namespace with a name and a tag. -/
inductive Address
  | Public (name : XorName) (tag : Nat)
  | Private (name : XorName) (tag : Nat)
deriving DecidableEq

/-- Address::from_kind. -/
def Address.from_kind (kind : Kind) (name : XorName) (tag : Nat) : Address :=
  match kind with
  | Kind.Public => Address.Public name tag
  | Kind.Private => Address.Private name tag

/-- Address::kind. -/
def Address.kind : Address → Kind
  | Address.Public _ _ => Kind.Public
  | Address.Private _ _ => Kind.Private

/-- Address::name. -/
def Address.name : Address → XorName
  | Address.Public n _ => n
  | Address.Private n _ => n

/-- Address::tag. -/
def Address.tag : Address → Nat
  | Address.Public _ t => t
  | Address.Private _ t => t

/-- Address::is_public. -/
def Address.is_public (a : Address) : Bool := a.kind.is_public

/-- Address::is_private. -/
def Address.is_private (a : Address) : Bool := a.kind.is_private

/-! ## Immutable data manager (src/personas/immutable_data_manager.rs) -/

/-- Number of replicant holders per chunk (REPLICANTS in immutable_data_manager.rs). -/
def REPLICANTS : Nat := 2

/-- A PmidNode chosen to store a chunk, with its holder state
(the DataHolder enum used by the manager: Pending / Good / Failed, each
carrying the holder's name). -/
inductive DataHolder
  | Pending (name : XorName)
  | Good (name : XorName)
  | Failed (name : XorName)
deriving DecidableEq

/-- DataHolder::name. -/
def DataHolder.name : DataHolder → XorName
  | DataHolder.Pending n => n
  | DataHolder.Good n => n
  | DataHolder.Failed n => n

/-- HashSet::insert on the holder set. -/
def holderInsert (x : DataHolder) (l : List DataHolder) : List DataHolder :=
  if l.contains x then l else x :: l

/-- HashSet::remove on the holder set: whether the element was present, and the
set without it. -/
def holderRemove (x : DataHolder) (l : List DataHolder) : Bool × List DataHolder :=
  (l.contains x, l.erase x)

/-- A chunk's Account: the data identifier and the set of holders. -/
structure Account where
  data_name : XorName
  data_holders : List DataHolder
deriving DecidableEq

/-- The ImmutableDataManager's mutable state: the accounts map keyed by chunk
name, and the names cached in data_cache (payload bytes are irrelevant to the
claims and omitted; ongoing_gets is untouched by the modelled operations). -/
structure IDMState where
  accounts : List (XorName × Account)
  data_cache : List XorName
deriving DecidableEq

/-- The error kinds of the manager reachable from the modelled operations. -/
inductive InternalError
  | InvalidResponse
  | UnableToAllocateNewPmidNode
  | NotInCloseGroup
deriving DecidableEq

/-- ImmutableDataManager::choose_initial_data_holders.  close_group is the
routing node's answer for the chunk name (None when we are not in the close
group): retain the non-full nodes, truncate to REPLICANTS, mark all Pending. -/
def choose_initial_data_holders (close_group : Option (List XorName))
    (full_pmid_nodes : List XorName) : Except InternalError (List DataHolder) :=
  match close_group with
  | some target_data_holders =>
    Except.ok (((target_data_holders.filter
        (fun target => !full_pmid_nodes.contains target)).take REPLICANTS).map DataHolder.Pending)
  | none => Except.error InternalError.NotInCloseGroup

/-- ImmutableDataManager::handle_put for a chunk named data_name.  Returns the
new state and the names of the holders a Put request is dispatched to
(Authority::NodeManager destinations).  The client success response and the
Backup/Sacrificial copies sent to NaeManagers are outside the model, as is the
payload placed in data_cache (only the cached name is tracked). -/
def handle_put (s : IDMState) (close_group : Option (List XorName))
    (full_pmid_nodes : List XorName) (data_name : XorName) :
    Except InternalError (IDMState × List XorName) :=
  if (assocLookup s.accounts data_name).isSome then Except.ok (s, [])
  else
    match choose_initial_data_holders close_group full_pmid_nodes with
    | Except.error e => Except.error e
    | Except.ok target_data_holders =>
      Except.ok
        ({ accounts := assocInsert s.accounts data_name
             { data_name := data_name, data_holders := target_data_holders },
           data_cache := data_name :: s.data_cache.filter (fun n => !(n == data_name)) },
         target_data_holders.map DataHolder.name)

/-- ImmutableDataManager::handle_put_success: requires an account for data_name
holding pmid_node as Pending, moves it to Good and drops the cached data. -/
def handle_put_success (s : IDMState) (pmid_node : XorName) (data_name : XorName) :
    Except InternalError IDMState :=
  match assocLookup s.accounts data_name with
  | none => Except.error InternalError.InvalidResponse
  | some account =>
    let (removed, holders) := holderRemove (DataHolder.Pending pmid_node) account.data_holders
    if removed then
      Except.ok
        { accounts := assocInsert s.accounts data_name
            { account with data_holders := holderInsert (DataHolder.Good pmid_node) holders },
          data_cache := s.data_cache.erase data_name }
    else Except.error InternalError.InvalidResponse

/-- The manager state after a successful handle_put_success: the account's
Pending entry for the holder replaced by a Good entry, and the cached data
dropped.  Used to state the success result. -/
def promotedIDMState (s : IDMState) (pmid data_name : XorName) (account : Account) : IDMState :=
  let holders := holderInsert (DataHolder.Good pmid) (account.data_holders.erase (DataHolder.Pending pmid))
  { accounts := assocInsert s.accounts data_name { account with data_holders := holders },
    data_cache := s.data_cache.erase data_name }

/-! ## Names, bits and section prefixes (xor_space; modelled from the spec,
the Prefix/XorName module is not under src/) -/

/-- Bit i of a name, reading the 256-bit value most-significant bit first. -/
def bitOf (n : XorName) (i : Nat) : Bool := n.testBit (255 - i)

/-- A section prefix: a bit-string of length 0..=256 over names. -/
abbrev Pfx := List Bool

/-- Helper for pfxMatches: compare the bits of the string with the name,
starting at bit index i. -/
def pfxMatchesFrom : Pfx → XorName → Nat → Bool
  | [], _, _ => true
  | b :: rest, n, i => (bitOf n i == b) && pfxMatchesFrom rest n (i + 1)

/-- Modelled from the spec: Prefix::matches — the name starts with the prefix's bits. -/
def pfxMatches (p : Pfx) (n : XorName) : Bool := pfxMatchesFrom p n 0

/-- Modelled from the spec: Prefix::is_compatible — one prefix is an initial
segment of the other. -/
def isCompatible (p q : Pfx) : Bool := p.isPrefixOf q || q.isPrefixOf p

/-- Modelled from the spec: Prefix::is_extension_of — the other prefix is a
strictly shorter initial segment of this one (a split child extends its parent). -/
def isExtensionOf (p q : Pfx) : Bool := q.isPrefixOf p && decide (q.length < p.length)

/-- Modelled from the spec: Prefix::pushed — append one bit, giving a child prefix. -/
def pushedBit (p : Pfx) (b : Bool) : Pfx := p ++ [b]

/-- Helper for commonPfxLen: walk bit indices with fuel. -/
def commonPfxLenAux (a b : XorName) : Nat → Nat → Nat
  | 0, i => i
  | fuel + 1, i => if bitOf a i = bitOf b i then commonPfxLenAux a b fuel (i + 1) else i

/-- Modelled from the spec: Xorable::common_prefix — the number of leading bits
on which the two names agree. -/
def commonPfxLen (a b : XorName) : Nat := commonPfxLenAux a b 256 0

/-! ## Section data model (chain/chain.rs and its collaborators; the
section/EldersInfo and member-table modules are not under src/ and are
modelled from the spec where noted) -/

/-- State of a section member (NodeState in the spec's MembersTable): Joined,
Relocating, or Left. -/
inductive MemberState
  | Joined
  | Relocating
  | Left
deriving DecidableEq

/-- A row of the members table: name, age and state.  P2pNode network addresses
are irrelevant to the claims; a node is identified by its name. -/
structure MemberInfo where
  name : XorName
  age : Nat
  state : MemberState
deriving DecidableEq

/-- Insertion step for sortNames. -/
def insertSorted (x : XorName) : List XorName → List XorName
  | [] => [x]
  | y :: ys => if x ≤ y then x :: y :: ys else y :: insertSorted x ys

/-- Names sorted ascending — the iteration order of a BTreeMap keyed by name. -/
def sortNames : List XorName → List XorName
  | [] => []
  | x :: xs => insertSorted x (sortNames xs)

/-- EldersInfo: the elder set of a section under a prefix, with a version that
increases on replacement.  Members are kept name-sorted (BTreeMap order). -/
structure EldersInfo where
  pfx : Pfx
  members : List XorName
  version : Nat
deriving DecidableEq

/-- EldersInfo::new from a member set, a prefix and the predecessor info.
Modelled from the spec: the version is the predecessor's plus one (0 at
genesis); the source's Result is always Ok for the inputs the chain builds. -/
def EldersInfo.new (members : List XorName) (p : Pfx) (prev : Option EldersInfo) : EldersInfo :=
  { pfx := p
    members := sortNames members
    version := match prev with
      | some i => i.version + 1
      | none => 0 }

/-- RelocateDetails: the scheduled relocation of a node (the chain reads only
pub_id; the destination is carried along). -/
structure RelocateDetails where
  pub_id : XorName
  destination : XorName
deriving DecidableEq

/-- SectionKeyInfo: a section key with the prefix and version it was made for.
The BLS public key is modelled as an opaque numeric id. -/
structure SectionKeyInfo where
  pfx : Pfx
  version : Nat
  key : Nat
deriving DecidableEq

/-- Payload of AckMessage / SendAckMessage events: source prefix and acked version. -/
structure AckMessagePayload where
  src_pfx : Pfx
  ack_version : Nat
deriving DecidableEq

/-- AccumulatingEvent (chain module): the vote payloads the consensus engine
accumulates.  User payload bytes are a list of naturals. -/
inductive AccumulatingEvent
  | Online (name : XorName) (age : Nat)
  | Offline (name : XorName)
  | StartDkg (participants : List XorName)
  | SectionInfo (info : EldersInfo) (key_info : SectionKeyInfo)
  | NeighbourInfo (info : EldersInfo)
  | TheirKeyInfo (key_info : SectionKeyInfo)
  | AckMessage (payload : AckMessagePayload)
  | SendAckMessage (payload : AckMessagePayload)
  | ParsecPrune
  | Relocate (details : RelocateDetails)
  | RelocatePrepare (details : RelocateDetails) (count : Nat)
  | User (payload : List Nat)
deriving DecidableEq

/-- AccumulatedEvent: an accumulating event that reached agreement.  The
elders_change summary attached by the source is not observed by any claim and
is omitted. -/
structure AccumulatedEvent where
  content : AccumulatingEvent
deriving DecidableEq

/-- AccumulatingProof: the set of voters behind an accumulated event, plus a
flag standing in for BLS share validity — check_and_combine_signatures
succeeds exactly when the flag is set. -/
structure AccumulatingProof where
  voters : List XorName
  valid : Bool
deriving DecidableEq

/-- The SharedState of the section held by the chain.  churn_event_backlog is a
VecDeque kept front-at-head (push_front conses, pop_back takes the last
element); relocate_queue is kept BACK-at-head, since the chain only pops and
pushes at its back (pop_back takes the head, push_back conses).  The section
proof chain (our_history) is not observed by any claim and is omitted. -/
structure SharedState where
  handled_genesis_event : Bool
  our_info : EldersInfo
  our_members : List MemberInfo
  churn_event_backlog : List AccumulatedEvent
  relocate_queue : List RelocateDetails
  neighbours : List EldersInfo
  their_keys : List SectionKeyInfo
  their_knowledge : List (Pfx × Nat)
deriving DecidableEq

/-- The split_cache entry: the first-arrived child EldersInfo of a split. -/
structure SplitCache where
  elders_info : EldersInfo
  key_info : SectionKeyInfo
  proofs : AccumulatingProof
deriving DecidableEq

/-- The Chain struct: network parameters, our identity, the shared state, the
churn markers, the pending DKG results, the split cache, and the consensus
engine's accumulated-but-unpolled events (event, proof) in insertion order.
Section BLS key material is carried only as the DkgResult ids in
new_section_bls_keys. -/
structure ChainState where
  elder_size : Nat
  safe_section_size : Nat
  our_name : XorName
  state : SharedState
  churn_in_progress : Bool
  members_changed : Bool
  new_section_bls_keys : List (XorName × Nat)
  split_cache : Option SplitCache
  pending_events : List (AccumulatingEvent × AccumulatingProof)
deriving DecidableEq

/-- The error kinds of the chain reachable from the modelled operations. -/
inductive RoutingError
  | InvalidNewSectionInfo
  | InvalidElderDkgResult
  | CannotRoute
deriving DecidableEq

/-- Chain::can_poll_churn. -/
def canPollChurn (s : ChainState) : Bool :=
  s.state.handled_genesis_event && !s.churn_in_progress

/-- SharedState::is_peer_our_elder — the name is one of our current elders. -/
def isPeerOurElder (s : ChainState) (name : XorName) : Bool :=
  s.state.our_info.members.contains name

/-- Modelled from the spec: our_members.contains — the node has a members-table
entry that has not reached state Left (a relocating node is still a member). -/
def memberContains (members : List MemberInfo) (name : XorName) : Bool :=
  members.any (fun m => m.name == name && !(m.state == MemberState.Left))

/-- VecDeque::pop_back on a front-at-head list. -/
def popBack {α : Type} : List α → Option α × List α
  | [] => (none, [])
  | [x] => (some x, [])
  | x :: y :: rest =>
    let (r, keep) := popBack (y :: rest)
    (r, x :: keep)

/-- Chain::poll_churn_event_backlog: when churn may be polled, pop one entry
from the back of the backlog. -/
def pollChurnEventBacklog (s : ChainState) : Option AccumulatedEvent × ChainState :=
  if canPollChurn s then
    match popBack s.state.churn_event_backlog with
    | (some event, rest) =>
      (some event, { s with state := { s.state with churn_event_backlog := rest } })
    | (none, _) => (none, s)
  else (none, s)

/-- The events that start churn in check_ready_or_backlog_churn_event:
Online, Offline and Relocate. -/
def isStartChurnEvent : AccumulatingEvent → Bool
  | AccumulatingEvent.Online _ _ => true
  | AccumulatingEvent.Offline _ => true
  | AccumulatingEvent.Relocate _ => true
  | _ => false

/-- Chain::check_ready_or_backlog_churn_event: a churn-starting event is pushed
to the front of the backlog and withheld while churn cannot be polled;
otherwise it is returned.  The source's Result is always Ok. -/
def checkReadyOrBacklogChurnEvent (s : ChainState) (event : AccumulatedEvent) :
    Option AccumulatedEvent × ChainState :=
  if isStartChurnEvent event.content && !canPollChurn s then
    (none, { s with state :=
      { s.state with churn_event_backlog := event :: s.state.churn_event_backlog } })
  else (some event, s)

/-- The pop-skip loop of Chain::poll_relocation: pop entries from the back of
the relocation queue, dropping those that are no longer members, until a member
is found or the queue is exhausted. -/
def relocFind (members : List MemberInfo) :
    List RelocateDetails → Option RelocateDetails × List RelocateDetails
  | [] => (none, [])
  | d :: rest =>
    if memberContains members d.pub_id then (some d, rest)
    else relocFind members rest

/-- Chain::poll_relocation: only when churn may be polled and the backlog is
empty; skipped non-members are discarded; a popped current elder is pushed back
onto the queue and nothing is returned; otherwise the details are returned. -/
def pollRelocation (s : ChainState) : Option RelocateDetails × ChainState :=
  if !canPollChurn s || !s.state.churn_event_backlog.isEmpty then (none, s)
  else
    match relocFind s.state.our_members s.state.relocate_queue with
    | (none, _) => (none, { s with state := { s.state with relocate_queue := [] } })
    | (some details, rest) =>
      if isPeerOurElder s details.pub_id then
        (none, { s with state := { s.state with relocate_queue := details :: rest } })
      else (some details, { s with state := { s.state with relocate_queue := rest } })

/-- MIN_ADULT_AGE from the spec's constants. -/
def MIN_ADULT_AGE : Nat := 4

/-- Modelled from the spec: a mature member — Joined with at least adult age. -/
def isMature (m : MemberInfo) : Bool :=
  (m.state == MemberState.Joined) && decide (MIN_ADULT_AGE ≤ m.age)

/-- Ordering for elder candidacy: oldest age first, ties by ascending name. -/
def olderFirst (a b : MemberInfo) : Bool :=
  decide (b.age < a.age) || ((a.age == b.age) && decide (a.name ≤ b.name))

/-- Insertion step for sortByAge. -/
def insertByAge (x : MemberInfo) : List MemberInfo → List MemberInfo
  | [] => [x]
  | y :: ys => if olderFirst x y then x :: y :: ys else y :: insertByAge x ys

/-- Members sorted oldest first, ties by name. -/
def sortByAge : List MemberInfo → List MemberInfo
  | [] => []
  | x :: xs => insertByAge x (sortByAge xs)

/-- Modelled from the spec: our_members.elder_candidates — up to n oldest-age
Joined members, ties broken by lexicographic name. -/
def elderCandidates (n : Nat) (members : List MemberInfo) : List XorName :=
  ((sortByAge (members.filter (fun m => m.state == MemberState.Joined))).take n).map
    MemberInfo.name

/-- Modelled from the spec: elder_candidates_from_relocating — padding
candidates drawn from relocating members, oldest first. -/
def elderCandidatesFromRelocating (n : Nat) (members : List MemberInfo) : List XorName :=
  ((sortByAge (members.filter (fun m => m.state == MemberState.Relocating))).take n).map
    MemberInfo.name

/-- Chain::our_expected_elders: elder candidates, padded from the relocating
members when fewer than elder_size are available. -/
def ourExpectedElders (s : ChainState) : List XorName :=
  let elders := elderCandidates s.elder_size s.state.our_members
  let missing := s.elder_size - elders.length
  elders ++ elderCandidatesFromRelocating missing s.state.our_members

/-- Chain::should_split: count mature members on our side of the next bit
(common prefix with our name longer than our prefix) against the rest; split
only when both child sections would hold at least safe_section_size members. -/
def shouldSplit (s : ChainState) : Bool :=
  let bc := s.state.our_info.pfx.length
  let matureMembers := s.state.our_members.filter isMature
  let ourNewSize :=
    (matureMembers.filter (fun m => decide (bc < commonPfxLen s.our_name m.name))).length
  let siblingNewSize :=
    (matureMembers.filter (fun m => !decide (bc < commonPfxLen s.our_name m.name))).length
  decide (s.safe_section_size ≤ ourNewSize) && decide (s.safe_section_size ≤ siblingNewSize)

/-- Modelled from the spec: elder_candidates_matching_prefix — elder candidates
among Joined members whose name matches the given prefix. -/
def elderCandidatesMatchingPfx (s : ChainState) (p : Pfx) (n : Nat) : List XorName :=
  ((sortByAge (s.state.our_members.filter
      (fun m => (m.state == MemberState.Joined) && pfxMatches p m.name))).take n).map
    MemberInfo.name

/-- Chain::split_self: push our next name bit onto our prefix for our child,
the flipped bit for the sibling, and build an EldersInfo for each from the
members matching that child prefix. -/
def splitSelf (s : ChainState) : EldersInfo × EldersInfo :=
  let nextBit := bitOf s.our_name s.state.our_info.pfx.length
  let ourPfx := pushedBit s.state.our_info.pfx nextBit
  let otherPfx := pushedBit s.state.our_info.pfx (!nextBit)
  (EldersInfo.new (elderCandidatesMatchingPfx s ourPfx s.elder_size) ourPfx
      (some s.state.our_info),
   EldersInfo.new (elderCandidatesMatchingPfx s otherPfx s.elder_size) otherPfx
      (some s.state.our_info))

/-- Outcome of promote_and_demote_elders: the new infos to vote for (if any)
with the updated chain, or the fatal merging panic. -/
inductive PDResult
  | ok (infos : Option (List EldersInfo)) (s : ChainState)
  | panicked
deriving DecidableEq

/-- Chain::promote_and_demote_elders.  Note the source computes old_size from
self.state.our_info().len() and then compares self.state.our_info().len()
against elder_size in the merging check — both reads happen with no
intervening mutation, which this embedding preserves faithfully. -/
def promoteAndDemoteElders (s : ChainState) : PDResult :=
  if !s.members_changed || !canPollChurn s then PDResult.ok none s
  else if shouldSplit s then
    let (our_info, other_info) := splitSelf s
    PDResult.ok (some [our_info, other_info])
      { s with members_changed := false, churn_in_progress := true }
  else
    let expected_elders := ourExpectedElders s
    if sortNames expected_elders == sortNames s.state.our_info.members then
      PDResult.ok none { s with members_changed := false }
    else
      let old_size := s.state.our_info.members.length
      let new_info := EldersInfo.new expected_elders s.state.our_info.pfx (some s.state.our_info)
      if s.state.our_info.members.length < s.elder_size ∧ s.elder_size ≤ old_size then
        PDResult.panicked
      else
        PDResult.ok (some [new_info])
          { s with members_changed := false, churn_in_progress := true }

/-- Modelled from the spec: the neighbour pruning applied after our own prefix
changes — a neighbour whose prefix is compatible with ours is a redundant
cover and is evicted (sections.prune_neighbours). -/
def pruneNeighbours (ourPfx : Pfx) (ns : List EldersInfo) : List EldersInfo :=
  ns.filter (fun info => !isCompatible info.pfx ourPfx)

/-- Modelled from the spec: sections.add_neighbour — replace any entry for the
same prefix and evict entries made redundant against our prefix. -/
def addNeighbour (ourPfx : Pfx) (ns : List EldersInfo) (info : EldersInfo) : List EldersInfo :=
  pruneNeighbours ourPfx (info :: ns.filter (fun i => !(i.pfx == info.pfx)))

/-- Chain::do_add_elders_info: combine the section-proof signatures (succeeds
iff the proof's validity flag is set), look up the DKG key of the first member
of the new info (the whole pending-key map is consumed), commit the new info as
ours, clear churn_in_progress, prune neighbours, and drop members no longer
matching our prefix. -/
def doAddEldersInfo (s : ChainState) (elders_info : EldersInfo)
    (_key_info : SectionKeyInfo) (proofs : AccumulatingProof) :
    Except RoutingError ChainState :=
  if !proofs.valid then Except.error RoutingError.InvalidNewSectionInfo
  else
    match elders_info.members.head? with
    | none => Except.error RoutingError.InvalidElderDkgResult
    | some first_name =>
      match assocLookup s.new_section_bls_keys first_name with
      | none => Except.error RoutingError.InvalidElderDkgResult
      | some _new_key =>
        Except.ok
          { s with
            state := { s.state with
              our_info := elders_info,
              neighbours := pruneNeighbours elders_info.pfx s.state.neighbours,
              our_members :=
                s.state.our_members.filter (fun m => pfxMatches elders_info.pfx m.name) },
            churn_in_progress := false,
            new_section_bls_keys := [] }

/-- Chain::add_elders_info: split handling.  A child prefix extending ours is
buffered in split_cache on first arrival (not handled); when the sibling
arrives, the cached child is committed as ours if its prefix matches our name
(and the newcomer becomes a neighbour), otherwise the newcomer is committed and
the cached child becomes the neighbour.  A non-extension prefix is committed
directly. -/
def addEldersInfo (s : ChainState) (elders_info : EldersInfo)
    (key_info : SectionKeyInfo) (proofs : AccumulatingProof) :
    Except RoutingError (Bool × ChainState) :=
  if isExtensionOf elders_info.pfx s.state.our_info.pfx then
    match s.split_cache with
    | none =>
      Except.ok (false, { s with split_cache := some ⟨elders_info, key_info, proofs⟩ })
    | some cache =>
      let s0 := { s with split_cache := none }
      if pfxMatches cache.elders_info.pfx s.our_name then
        match doAddEldersInfo s0 cache.elders_info cache.key_info cache.proofs with
        | Except.error e => Except.error e
        | Except.ok s1 =>
          Except.ok (true,
            { s1 with state := { s1.state with
                neighbours := addNeighbour s1.state.our_info.pfx s1.state.neighbours
                  elders_info } })
      else
        match doAddEldersInfo s0 elders_info key_info proofs with
        | Except.error e => Except.error e
        | Except.ok s1 =>
          Except.ok (true,
            { s1 with state := { s1.state with
                neighbours := addNeighbour s1.state.our_info.pfx s1.state.neighbours
                  cache.elders_info } })
  else
    match doAddEldersInfo s elders_info key_info proofs with
    | Except.error e => Except.error e
    | Except.ok s1 => Except.ok (true, s1)

/-- Modelled from the spec: EldersInfo::is_quorum — the proofs cover a BLS
supermajority (strictly more than two thirds) of the current elders. -/
def isQuorum (info : EldersInfo) (voters : List XorName) : Bool :=
  decide (2 * info.members.length <
    3 * (info.members.filter (fun m => voters.contains m)).length)

/-- Modelled from the spec: EldersInfo::is_total_consensus — every current
elder has provided a proof. -/
def isTotalConsensus (info : EldersInfo) (voters : List XorName) : Bool :=
  info.members.all (fun m => voters.contains m)

/-- Chain::is_valid_transition.  none models the unreachable!() panic for
StartDkg; some b a normal return.  The non-successor SectionInfo log_or_panic
is modelled with its production semantics (log and proceed). -/
def isValidTransition (s : ChainState) (ev : AccumulatingEvent) (voters : List XorName) :
    Option Bool :=
  match ev with
  | AccumulatingEvent.SectionInfo _ _ => some (isQuorum s.state.our_info voters)
  | AccumulatingEvent.NeighbourInfo info =>
    if !isQuorum s.state.our_info voters then some false
    else if s.state.neighbours.any
        (fun i => isCompatible info.pfx i.pfx && !(info.version == i.version + 1)) then
      some false
    else some true
  | AccumulatingEvent.Online _ _ => some (isQuorum s.state.our_info voters)
  | AccumulatingEvent.Offline _ => some (isQuorum s.state.our_info voters)
  | AccumulatingEvent.TheirKeyInfo _ => some (isQuorum s.state.our_info voters)
  | AccumulatingEvent.AckMessage _ => some (isQuorum s.state.our_info voters)
  | AccumulatingEvent.ParsecPrune => some (isQuorum s.state.our_info voters)
  | AccumulatingEvent.Relocate _ => some (isQuorum s.state.our_info voters)
  | AccumulatingEvent.RelocatePrepare _ _ => some (isQuorum s.state.our_info voters)
  | AccumulatingEvent.User _ => some (isQuorum s.state.our_info voters)
  | AccumulatingEvent.SendAckMessage _ => some (isTotalConsensus s.state.our_info voters)
  | AccumulatingEvent.StartDkg _ => none

/-- Outcome of poll_accumulator: the polled (event, proof) with the updated
chain, or the StartDkg panic. -/
inductive AccPoll
  | ok (found : Option (AccumulatingEvent × AccumulatingProof)) (s : ChainState)
  | panicked
deriving DecidableEq

/-- The find step of Chain::poll_accumulator: the first pending event whose
transition is valid.  Outer none models the panic raised inside the search. -/
def findValidEvent (s : ChainState) :
    List (AccumulatingEvent × AccumulatingProof) →
    Option (Option (AccumulatingEvent × AccumulatingProof))
  | [] => some none
  | (e, p) :: rest =>
    match isValidTransition s e p.voters with
    | none => none
    | some true => some (some (e, p))
    | some false => findValidEvent s rest

/-- ConsensusEngine::poll_event's removal of the chosen event. -/
def removeEvent (ev : AccumulatingEvent) :
    List (AccumulatingEvent × AccumulatingProof) →
    List (AccumulatingEvent × AccumulatingProof)
  | [] => []
  | (e, p) :: rest => if e == ev then rest else (e, p) :: removeEvent ev rest

/-- Chain::poll_accumulator: find the first valid complete event and remove it
from the engine. -/
def pollAccumulator (s : ChainState) : AccPoll :=
  match findValidEvent s s.pending_events with
  | none => AccPoll.panicked
  | some none => AccPoll.ok none s
  | some (some (e, p)) =>
    AccPoll.ok (some (e, p)) { s with pending_events := removeEvent e s.pending_events }

/-- Modelled from the spec: sections.update_keys — record the key for its
prefix, replacing any previous entry for that prefix. -/
def updateKeys (keys : List SectionKeyInfo) (ki : SectionKeyInfo) : List SectionKeyInfo :=
  ki :: keys.filter (fun k => !(k.pfx == ki.pfx))

/-- Modelled from the spec: sections.update_knowledge — record the acked
version for the source prefix. -/
def updateKnowledge (kn : List (Pfx × Nat)) (p : Pfx) (v : Nat) : List (Pfx × Nat) :=
  (p, v) :: kn.filter (fun e => !(e.1 == p))

/-- Chain::process_accumulating: apply the accumulated event to the state;
SectionInfo goes through add_elders_info (not handled means nothing is
returned), NeighbourInfo/TheirKeyInfo/AckMessage update the section map,
ParsecPrune is swallowed during churn, everything else passes through. -/
def processAccumulating (s : ChainState) (ev : AccumulatingEvent)
    (proofs : AccumulatingProof) :
    Except RoutingError (Option AccumulatedEvent × ChainState) :=
  match ev with
  | AccumulatingEvent.SectionInfo info ki =>
    match addEldersInfo s info ki proofs with
    | Except.error e => Except.error e
    | Except.ok (true, s1) => Except.ok (some { content := ev }, s1)
    | Except.ok (false, s1) => Except.ok (none, s1)
  | AccumulatingEvent.NeighbourInfo info =>
    Except.ok (some { content := ev },
      { s with state := { s.state with
          neighbours := addNeighbour s.state.our_info.pfx s.state.neighbours info } })
  | AccumulatingEvent.TheirKeyInfo ki =>
    Except.ok (some { content := ev },
      { s with state := { s.state with their_keys := updateKeys s.state.their_keys ki } })
  | AccumulatingEvent.AckMessage payload =>
    Except.ok (some { content := ev },
      { s with state := { s.state with
          their_knowledge :=
            updateKnowledge s.state.their_knowledge payload.src_pfx payload.ack_version } })
  | AccumulatingEvent.ParsecPrune =>
    if s.churn_in_progress then Except.ok (none, s)
    else Except.ok (some { content := ev }, s)
  | _ => Except.ok (some { content := ev }, s)

/-- The outcome of a successful accumulated poll (the PollAccumulated enum). -/
inductive PollAccumulated
  | AccumulatedEv (event : AccumulatedEvent)
  | RelocateDet (details : RelocateDetails)
  | PromoteDemoteElders (infos : List EldersInfo)
deriving DecidableEq

/-- Overall outcome of poll_accumulated: a result with the updated chain, a
routing error, or a panic bubbled up from a callee. -/
inductive PollOutcome
  | ok (result : Option PollAccumulated) (s : ChainState)
  | err (e : RoutingError)
  | panicked
deriving DecidableEq

/-- Chain::poll_accumulated: drain the churn backlog first, then promote/demote
elders, then relocation, then the consensus accumulator (processing the polled
event and backlogging churn-starting events that cannot run yet). -/
def pollAccumulated (s : ChainState) : PollOutcome :=
  match pollChurnEventBacklog s with
  | (some event, s') => PollOutcome.ok (some (PollAccumulated.AccumulatedEv event)) s'
  | (none, s0) =>
    match promoteAndDemoteElders s0 with
    | PDResult.panicked => PollOutcome.panicked
    | PDResult.ok (some new_infos) s1 =>
      PollOutcome.ok (some (PollAccumulated.PromoteDemoteElders new_infos)) s1
    | PDResult.ok none s1 =>
      match pollRelocation s1 with
      | (some details, s2) => PollOutcome.ok (some (PollAccumulated.RelocateDet details)) s2
      | (none, s2) =>
        match pollAccumulator s2 with
        | AccPoll.panicked => PollOutcome.panicked
        | AccPoll.ok none s3 => PollOutcome.ok none s3
        | AccPoll.ok (some (e, p)) s3 =>
          match processAccumulating s3 e p with
          | Except.error er => PollOutcome.err er
          | Except.ok (none, s4) => PollOutcome.ok none s4
          | Except.ok (some event, s4) =>
            match checkReadyOrBacklogChurnEvent s4 event with
            | (some event', s5) =>
              PollOutcome.ok (some (PollAccumulated.AccumulatedEv event')) s5
            | (none, s5) => PollOutcome.ok none s5

/-! ## Concrete states used to evaluate the model -/

/-- A chain in the unsupported merging situation: seven current elders but only
two remaining joined members, so the expected elder set shrinks below
elder_size while the old size was at elder_size. -/
def mergeState : ChainState where
  elder_size := 7
  safe_section_size := 8
  our_name := 1
  state := ⟨true, ⟨[], [10, 11, 12, 13, 14, 15, 16], 0⟩,
    [⟨20, 5, MemberState.Joined⟩, ⟨21, 5, MemberState.Joined⟩], [], [], [], [], []⟩
  churn_in_progress := false
  members_changed := true
  new_section_bls_keys := []
  split_cache := none
  pending_events := []

/-- A chain able to poll churn, with one backlogged event and nothing else
pending. -/
def backlogState : ChainState where
  elder_size := 7
  safe_section_size := 8
  our_name := 1
  state := ⟨true, ⟨[], [1], 0⟩, [], [⟨AccumulatingEvent.ParsecPrune⟩], [], [], [], []⟩
  churn_in_progress := false
  members_changed := false
  new_section_bls_keys := []
  split_cache := none
  pending_events := []

/-- A chain (prefix empty, our name 1) about to receive the two split children. -/
def splitState : ChainState where
  elder_size := 7
  safe_section_size := 8
  our_name := 1
  state := ⟨true, ⟨[], [1, 30], 0⟩,
    [⟨1, 5, MemberState.Joined⟩, ⟨30, 5, MemberState.Joined⟩], [], [], [], [], []⟩
  churn_in_progress := true
  members_changed := false
  new_section_bls_keys := [(3, 99)]
  split_cache := none
  pending_events := []

/-- The split child info whose prefix (one 1-bit) does not match our name 1. -/
def childInfoB : EldersInfo := ⟨[true], [2], 1⟩

/-- The split child info whose prefix (one 0-bit) matches our name 1; its first
member 3 has a pending DKG key in splitState. -/
def childInfoA : EldersInfo := ⟨[false], [3], 1⟩

/-- A key info for the committed split child. -/
def childKeyInfo : SectionKeyInfo := ⟨[false], 1, 7⟩

/-- A valid accumulating proof by voters 1 and 30. -/
def splitProofs : AccumulatingProof := ⟨[1, 30], true⟩

/-- A chain whose relocation queue holds a node that is currently an elder. -/
def relocState : ChainState where
  elder_size := 7
  safe_section_size := 8
  our_name := 1
  state := ⟨true, ⟨[], [40], 0⟩, [⟨40, 5, MemberState.Joined⟩], [],
    [⟨40, 77⟩], [], [], []⟩
  churn_in_progress := false
  members_changed := false
  new_section_bls_keys := []
  split_cache := none
  pending_events := []

/-- relocState after the elder replacement that demotes node 40 (it remains a
joined member). -/
def relocStateDemoted : ChainState :=
  { relocState with state := { relocState.state with our_info := ⟨[], [10], 1⟩ } }

/-- The chain after committing split child A as ours with sibling B as the
surviving neighbour. -/
def splitCommitted : ChainState where
  elder_size := 7
  safe_section_size := 8
  our_name := 1
  state := ⟨true, childInfoA,
    [⟨1, 5, MemberState.Joined⟩, ⟨30, 5, MemberState.Joined⟩], [], [], [childInfoB], [], []⟩
  churn_in_progress := false
  members_changed := false
  new_section_bls_keys := []
  split_cache := none
  pending_events := []

/-! # Theorems -/

/-! ## Association-list lemmas -/

theorem assocLookup_update_self {β : Type} (c : List (XorName × β)) (a : XorName)
    (v cur : β) (h : assocLookup c a = some cur) :
    assocLookup (assocUpdate c a v) a = some v := by
  induction c with
  | nil => simp [assocLookup] at h
  | cons kv rest ih =>
    obtain ⟨k, w⟩ := kv
    by_cases hk : k = a
    · subst hk
      simp [assocLookup, assocUpdate]
    · simp only [assocLookup, assocUpdate, if_neg hk] at h ⊢
      exact ih h

theorem assocLookup_update_ne {β : Type} (c : List (XorName × β)) (a b : XorName)
    (v : β) (h : b ≠ a) :
    assocLookup (assocUpdate c b v) a = assocLookup c a := by
  induction c with
  | nil => rfl
  | cons kv rest ih =>
    obtain ⟨k, w⟩ := kv
    by_cases hk : k = b
    · subst hk
      simp [assocLookup, assocUpdate, h]
    · simp only [assocLookup, assocUpdate, if_neg hk]
      by_cases hka : k = a
      · simp [hka]
      · simp [hka, ih]

theorem assocLookup_insert_self {β : Type} (c : List (XorName × β)) (k : XorName)
    (v : β) : assocLookup (assocInsert c k v) k = some v := by
  induction c with
  | nil => simp [assocInsert, assocLookup]
  | cons kv rest ih =>
    obtain ⟨k', w⟩ := kv
    by_cases hk : k' = k
    · subst hk
      simp [assocInsert, assocLookup]
    · simp [assocInsert, assocLookup, hk, ih]

theorem assocLookup_insert_ne {β : Type} (c : List (XorName × β)) (a b : XorName)
    (v : β) (h : b ≠ a) :
    assocLookup (assocInsert c b v) a = assocLookup c a := by
  induction c with
  | nil => simp [assocInsert, assocLookup, h]
  | cons kv rest ih =>
    obtain ⟨k, w⟩ := kv
    by_cases hk : k = b
    · subst hk
      simp [assocInsert, assocLookup, h]
    · simp only [assocInsert, assocLookup, if_neg hk]
      by_cases hka : k = a
      · simp [hka]
      · simp [hka, ih]

/-! ## Capacity lemmas -/

theorem set_adult_level_preserves (c : Capacity) (a b : XorName) (v cur : Nat)
    (h : assocLookup c a = some cur) :
    ∃ v', assocLookup (set_adult_level c b v).2 a = some v' ∧ cur ≤ v' := by
  unfold set_adult_level
  by_cases hab : b = a
  · subst hab
    rw [h]
    by_cases hv : v > cur
    · simp only [if_pos hv]
      exact ⟨v, assocLookup_update_self c b v cur h, Nat.le_of_lt hv⟩
    · simp only [if_neg hv]
      exact ⟨cur, h, Nat.le_refl cur⟩
  · cases hcb : assocLookup c b with
    | some curb =>
      by_cases hv : v > curb
      · simp only [if_pos hv]
        exact ⟨cur, by rw [assocLookup_update_ne c a b v hab]; exact h, Nat.le_refl cur⟩
      · simp only [if_neg hv]
        exact ⟨cur, h, Nat.le_refl cur⟩
    | none =>
      exact ⟨cur, by rw [assocLookup_insert_ne c a b v hab]; exact h, Nat.le_refl cur⟩

theorem set_adult_levels_mono (ops : List (XorName × Nat)) (c : Capacity)
    (a : XorName) (cur : Nat) (h : assocLookup c a = some cur) :
    ∃ v', assocLookup (set_adult_levels c ops) a = some v' ∧ cur ≤ v' := by
  induction ops generalizing c cur with
  | nil => exact ⟨cur, h, Nat.le_refl cur⟩
  | cons op rest ih =>
    obtain ⟨b, v⟩ := op
    obtain ⟨v1, hv1, hle1⟩ := set_adult_level_preserves c a b v cur h
    obtain ⟨v2, hv2, hle2⟩ := ih (set_adult_level c b v).2 v1 hv1
    exact ⟨v2, hv2, Nat.le_trans hle1 hle2⟩

/-- C1: Capacity::set_adult_level is monotonic non-decreasing.  A write
strictly above the current level replaces it and reports a change; an equal or
lower write is ignored and leaves the map untouched; under any sequence of
writes a recorded level never decreases; and the 3-then-7-then-5 scenario
stores 7. -/
theorem capacity_set_level_monotonic :
    (∀ (c : Capacity) (a : XorName) (v cur : Nat), assocLookup c a = some cur →
      (cur < v → (set_adult_level c a v).1 = true ∧
        assocLookup (set_adult_level c a v).2 a = some v) ∧
      (v ≤ cur → set_adult_level c a v = (false, c))) ∧
    (∀ (c : Capacity) (ops : List (XorName × Nat)) (a : XorName) (cur : Nat),
      assocLookup c a = some cur →
      ∃ v', assocLookup (set_adult_levels c ops) a = some v' ∧ cur ≤ v') ∧
    (∀ a : XorName, assocLookup (set_adult_levels [] [(a, 3), (a, 7), (a, 5)]) a = some 7) := by
  refine ⟨?_, ?_, ?_⟩
  · intro c a v cur h
    constructor
    · intro hv
      simp [set_adult_level, h, hv, assocLookup_update_self c a v cur h]
    · intro hv
      simp [set_adult_level, h, Nat.not_lt.mpr hv]
  · exact fun c ops a cur h => set_adult_levels_mono ops c a cur h
  · intro a
    simp [set_adult_levels, set_adult_level, assocLookup, assocInsert, assocUpdate]

/-- Witness for C1 at concrete inputs. -/
theorem capacity_set_level_monotonic_witness :
    ((set_adult_level [(0, 3)] 0 7).1 = true ∧
      assocLookup (set_adult_level [(0, 3)] 0 7).2 0 = some 7) ∧
    set_adult_level [(0, 3)] 0 2 = (false, [(0, 3)]) ∧
    assocLookup (set_adult_levels [] [(0, 3), (0, 7), (0, 5)]) 0 = some 7 :=
  ⟨(capacity_set_level_monotonic.1 [(0, 3)] 0 7 3 (by decide)).1 (by decide),
   (capacity_set_level_monotonic.1 [(0, 3)] 0 2 3 (by decide)).2 (by decide),
   capacity_set_level_monotonic.2.2 0⟩

/-- C9: Capacity::is_full is not total — it answers only for adults present in
the level map (the absent case is the todo!() panic, modelled as none), and for
a recorded adult the answer is exactly whether the level reached
MIN_LEVEL_WHEN_FULL = 9. -/
theorem is_full_partiality :
    (∀ (c : Capacity) (a : XorName), is_full c a = none ↔ assocLookup c a = none) ∧
    (∀ (c : Capacity) (a : XorName) (level : Nat), assocLookup c a = some level →
      is_full c a = some (decide (level ≥ MIN_LEVEL_WHEN_FULL))) ∧
    MIN_LEVEL_WHEN_FULL = 9 := by
  refine ⟨?_, ?_, rfl⟩
  · intro c a
    cases h : assocLookup c a <;> simp [is_full, h]
  · intro c a level h
    simp [is_full, h]

/-- Witness for C9 at concrete inputs. -/
theorem is_full_partiality_witness :
    is_full [(4, 9)] 4 = some (decide ((9 : Nat) ≥ MIN_LEVEL_WHEN_FULL)) ∧
    is_full [] 5 = none :=
  ⟨is_full_partiality.2.1 [(4, 9)] 4 9 (by decide),
   (is_full_partiality.1 [] 5).mpr (by decide)⟩

/-- C10: Register Address construction round-trips with its accessors, and
is_private is the negation of is_public. -/
theorem register_address_roundtrip :
    ∀ (kind : Kind) (name : XorName) (tag : Nat),
      (Address.from_kind kind name tag).kind = kind ∧
      (Address.from_kind kind name tag).name = name ∧
      (Address.from_kind kind name tag).tag = tag ∧
      (∀ a : Address, a.is_private = !a.is_public) := by
  intro kind name tag
  refine ⟨?_, ?_, ?_, fun a => rfl⟩ <;> cases kind <;> rfl

/-- C7: handle_put for a chunk with no existing account selects holders by
taking the close group, removing full nodes and truncating to REPLICANTS;
creates an account with each selected holder Pending; and dispatches a Put to
every selected holder. -/
theorem handle_put_new_account_selection :
    ∀ (s : IDMState) (g full : List XorName) (data_name : XorName),
      assocLookup s.accounts data_name = none →
      handle_put s (some g) full data_name =
        Except.ok
          ({ accounts := assocInsert s.accounts data_name
               ({ data_name := data_name,
                  data_holders := ((g.filter (fun t => !full.contains t)).take
                    REPLICANTS).map DataHolder.Pending }),
             data_cache := data_name :: s.data_cache.filter (fun n => !(n == data_name)) },
           (g.filter (fun t => !full.contains t)).take REPLICANTS) ∧
      assocLookup
          (assocInsert s.accounts data_name
            ({ data_name := data_name,
               data_holders := ((g.filter (fun t => !full.contains t)).take
                 REPLICANTS).map DataHolder.Pending })) data_name =
        some ({ data_name := data_name,
                data_holders := ((g.filter (fun t => !full.contains t)).take
                  REPLICANTS).map DataHolder.Pending }) := by
  intro s g full data_name h
  refine ⟨?_, assocLookup_insert_self s.accounts data_name _⟩
  simp only [handle_put, h, Option.isSome_none, Bool.false_eq_true, if_false,
    choose_initial_data_holders]
  have hid : (DataHolder.name ∘ DataHolder.Pending) = id := funext fun x => rfl
  simp [List.map_map, hid]

/-- Witness for C7 at concrete inputs: close group [1,2,3], node 2 full. -/
theorem handle_put_new_account_selection_witness :
    handle_put ⟨[], []⟩ (some [1, 2, 3]) [2] 9 =
      Except.ok (⟨[(9, ⟨9, [DataHolder.Pending 1, DataHolder.Pending 3]⟩)], [9]⟩, [1, 3]) := by
  have h := (handle_put_new_account_selection ⟨[], []⟩ [1, 2, 3] [2] 9 (by decide)).1
  rw [h]
  rfl

/-- Counterexample for C8 as stated: repeating handle_put_success with the
same holder and address fails with InvalidResponse instead of succeeding. -/
theorem handle_put_success_not_idempotent_cex :
    handle_put_success ⟨[(0, ⟨0, [DataHolder.Pending 5]⟩)], []⟩ 5 0 =
      Except.ok ⟨[(0, ⟨0, [DataHolder.Good 5]⟩)], []⟩ ∧
    handle_put_success ⟨[(0, ⟨0, [DataHolder.Good 5]⟩)], []⟩ 5 0 =
      Except.error InternalError.InvalidResponse :=
  ⟨rfl, rfl⟩

/-- C8 (amended): handle_put_success promotes the holder from Pending to Good;
a second application with the same holder and address leaves the manager state
unchanged but returns InvalidResponse instead of succeeding. -/
theorem handle_put_success_promotes_then_errors :
    ∀ (s : IDMState) (pmid data_name : XorName) (account : Account),
      assocLookup s.accounts data_name = some account →
      account.data_holders.contains (DataHolder.Pending pmid) = true →
      (account.data_holders.erase (DataHolder.Pending pmid)).contains
        (DataHolder.Pending pmid) = false →
      handle_put_success s pmid data_name =
        Except.ok (promotedIDMState s pmid data_name account) ∧
      handle_put_success (promotedIDMState s pmid data_name account) pmid data_name =
        Except.error InternalError.InvalidResponse := by
  intro s pmid data_name account h hpend herase
  have hmem : DataHolder.Pending pmid ∈ account.data_holders := by simpa using hpend
  constructor
  · simp [handle_put_success, promotedIDMState, h, holderRemove, hmem]
  · have hlook := assocLookup_insert_self s.accounts data_name
      { account with data_holders := holderInsert (DataHolder.Good pmid) (account.data_holders.erase (DataHolder.Pending pmid)) }
    have hne : DataHolder.Pending pmid ∉
        account.data_holders.erase (DataHolder.Pending pmid) := by
      simpa using herase
    have hnmem : DataHolder.Pending pmid ∉
        holderInsert (DataHolder.Good pmid)
          (account.data_holders.erase (DataHolder.Pending pmid)) := by
      intro hcontra
      unfold holderInsert at hcontra
      by_cases hg : ((account.data_holders.erase (DataHolder.Pending pmid)).contains
          (DataHolder.Good pmid)) = true
      · rw [if_pos hg] at hcontra
        exact hne hcontra
      · rw [if_neg hg] at hcontra
        rcases List.mem_cons.mp hcontra with heq | htail
        · exact DataHolder.noConfusion heq
        · exact hne htail
    simp [handle_put_success, promotedIDMState, hlook, holderRemove, hnmem]

/-- Witness for the amended C8 at concrete inputs. -/
theorem handle_put_success_promotes_then_errors_witness :
    handle_put_success ⟨[(7, ⟨7, [DataHolder.Pending 5]⟩)], [7]⟩ 5 7 =
      Except.ok ⟨[(7, ⟨7, [DataHolder.Good 5]⟩)], []⟩ ∧
    handle_put_success ⟨[(7, ⟨7, [DataHolder.Good 5]⟩)], []⟩ 5 7 =
      Except.error InternalError.InvalidResponse := by
  obtain ⟨h1, h2⟩ := handle_put_success_promotes_then_errors
    ⟨[(7, ⟨7, [DataHolder.Pending 5]⟩)], [7]⟩ 5 7 ⟨7, [DataHolder.Pending 5]⟩
    (by decide) (by decide) (by decide)
  constructor
  · rw [h1]
    rfl
  · exact h2

set_option maxRecDepth 8000 in
/-- C2: the merging check in promote_and_demote_elders is vacuous.  The source
compares our_info().len() (read after nothing changed it) with old_size, which
was read from the same expression, so the "Merging situation encountered!"
panic can never fire: no chain state panics, and in particular mergeState — a
genuine merging situation (expected elders shrink below elder_size from a
current elder set of elder_size, without a split) — yields a new EldersInfo
instead of failing fatally. -/
theorem promote_merge_check_unreachable :
    (∀ s : ChainState, promoteAndDemoteElders s ≠ PDResult.panicked) ∧
    shouldSplit mergeState = false ∧
    mergeState.members_changed = true ∧
    canPollChurn mergeState = true ∧
    sortNames (ourExpectedElders mergeState) ≠ sortNames mergeState.state.our_info.members ∧
    (ourExpectedElders mergeState).length < mergeState.elder_size ∧
    mergeState.elder_size ≤ mergeState.state.our_info.members.length ∧
    promoteAndDemoteElders mergeState =
      PDResult.ok
        (some [EldersInfo.new (ourExpectedElders mergeState)
          mergeState.state.our_info.pfx (some mergeState.state.our_info)])
        { mergeState with members_changed := false, churn_in_progress := true } := by
  refine ⟨?_, by decide, by decide, by decide, by decide, by decide, by decide, by decide⟩
  intro s
  simp only [promoteAndDemoteElders]
  split
  · simp
  · split
    · simp
    · split
      · simp
      · split
        · rename_i hmerge
          exact absurd (Nat.lt_of_lt_of_le hmerge.1 hmerge.2) (Nat.lt_irrefl _)
        · simp

/-- C6: is_valid_transition demands total consensus for SendAckMessage and
plain quorum for Online, Offline, TheirKeyInfo, AckMessage, ParsecPrune,
Relocate, RelocatePrepare and User, with the two notions characterised
against the current elder set. -/
theorem is_valid_transition_consensus_requirements :
    ∀ (s : ChainState) (voters : List XorName),
      (∀ payload, isValidTransition s (AccumulatingEvent.SendAckMessage payload) voters =
        some (isTotalConsensus s.state.our_info voters)) ∧
      (isTotalConsensus s.state.our_info voters = true ↔
        ∀ m ∈ s.state.our_info.members, voters.contains m = true) ∧
      (isQuorum s.state.our_info voters = true ↔
        2 * s.state.our_info.members.length <
          3 * (s.state.our_info.members.filter (fun m => voters.contains m)).length) ∧
      (∀ n a, isValidTransition s (AccumulatingEvent.Online n a) voters =
        some (isQuorum s.state.our_info voters)) ∧
      (∀ n, isValidTransition s (AccumulatingEvent.Offline n) voters =
        some (isQuorum s.state.our_info voters)) ∧
      (∀ ki, isValidTransition s (AccumulatingEvent.TheirKeyInfo ki) voters =
        some (isQuorum s.state.our_info voters)) ∧
      (∀ p, isValidTransition s (AccumulatingEvent.AckMessage p) voters =
        some (isQuorum s.state.our_info voters)) ∧
      (isValidTransition s AccumulatingEvent.ParsecPrune voters =
        some (isQuorum s.state.our_info voters)) ∧
      (∀ d, isValidTransition s (AccumulatingEvent.Relocate d) voters =
        some (isQuorum s.state.our_info voters)) ∧
      (∀ d c, isValidTransition s (AccumulatingEvent.RelocatePrepare d c) voters =
        some (isQuorum s.state.our_info voters)) ∧
      (∀ u, isValidTransition s (AccumulatingEvent.User u) voters =
        some (isQuorum s.state.our_info voters)) := by
  intro s voters
  refine ⟨fun _ => rfl, ?_, ?_, fun _ _ => rfl, fun _ => rfl, fun _ => rfl, fun _ => rfl,
    rfl, fun _ => rfl, fun _ _ => rfl, fun _ => rfl⟩
  · simp [isTotalConsensus, List.all_eq_true]
  · simp [isQuorum]

/-- Witness for C6 at a concrete chain and voter set. -/
theorem is_valid_transition_consensus_requirements_witness :
    isValidTransition backlogState (AccumulatingEvent.SendAckMessage ⟨[], 0⟩) [1] =
      some (isTotalConsensus backlogState.state.our_info [1]) ∧
    isValidTransition backlogState AccumulatingEvent.ParsecPrune [1] =
      some (isQuorum backlogState.state.our_info [1]) :=
  ⟨(is_valid_transition_consensus_requirements backlogState [1]).1 ⟨[], 0⟩,
   (is_valid_transition_consensus_requirements backlogState [1]).2.2.2.2.2.2.2.1⟩

/-- C5: poll_relocation returns details only when churn may be polled and the
backlog is empty; popped entries that are no longer members are discarded and
the loop continues; a popped current elder is pushed back (the queue is left
unchanged) and nothing is returned; a popped non-elder member's details are
returned — in particular the deferred details are returned by a later poll
once the node is demoted. -/
theorem poll_relocation_deferral :
    (∀ s : ChainState, canPollChurn s = false ∨ s.state.churn_event_backlog ≠ [] →
      pollRelocation s = (none, s)) ∧
    (∀ (s : ChainState) (d : RelocateDetails) (rest : List RelocateDetails),
      canPollChurn s = true → s.state.churn_event_backlog = [] →
      s.state.relocate_queue = d :: rest →
      memberContains s.state.our_members d.pub_id = false →
      pollRelocation s =
        pollRelocation { s with state := { s.state with relocate_queue := rest } }) ∧
    (∀ (s : ChainState) (d : RelocateDetails) (rest : List RelocateDetails),
      canPollChurn s = true → s.state.churn_event_backlog = [] →
      s.state.relocate_queue = d :: rest →
      memberContains s.state.our_members d.pub_id = true →
      isPeerOurElder s d.pub_id = true →
      pollRelocation s = (none, s)) ∧
    (∀ (s : ChainState) (d : RelocateDetails) (rest : List RelocateDetails),
      canPollChurn s = true → s.state.churn_event_backlog = [] →
      s.state.relocate_queue = d :: rest →
      memberContains s.state.our_members d.pub_id = true →
      isPeerOurElder s d.pub_id = false →
      pollRelocation s =
        (some d, { s with state := { s.state with relocate_queue := rest } })) := by
  refine ⟨?_, ?_, ?_, ?_⟩
  · intro s h
    rcases h with h | h
    · simp [pollRelocation, h]
    · have hb : s.state.churn_event_backlog.isEmpty = false := by
        cases hc : s.state.churn_event_backlog
        · exact absurd hc h
        · rfl
      simp [pollRelocation, hb]
  · intro s d rest h1 h2 h3 h4
    simp only [canPollChurn, Bool.and_eq_true, Bool.not_eq_true'] at h1
    rcases hfind : relocFind s.state.our_members rest with ⟨fr, q⟩
    cases fr <;>
      simp [pollRelocation, canPollChurn, isPeerOurElder, h1.1, h1.2, h2, h3,
        relocFind, h4, hfind]
  · intro s d rest h1 h2 h3 h4 h5
    simp [pollRelocation, h1, h2, h3, relocFind, h4, h5]
    rw [← h2, ← h3]
  · intro s d rest h1 h2 h3 h4 h5
    simp [pollRelocation, h1, h2, h3, relocFind, h4, h5]

/-- Witness for C5: node 40 is elder and queued, so nothing is returned and the
queue is kept; after demotion the same details are returned. -/
theorem poll_relocation_deferral_witness :
    pollRelocation relocState = (none, relocState) ∧
    pollRelocation relocStateDemoted =
      (some (⟨40, 77⟩ : RelocateDetails),
        { relocStateDemoted with state :=
            { relocStateDemoted.state with relocate_queue := [] } }) :=
  ⟨poll_relocation_deferral.2.2.1 relocState ⟨40, 77⟩ []
      (by decide) (by decide) (by decide) (by decide) (by decide),
   poll_relocation_deferral.2.2.2 relocStateDemoted ⟨40, 77⟩ []
      (by decide) (by decide) (by decide) (by decide) (by decide)⟩

/-- C4: add_elders_info split handling.  A strict-extension (split child)
EldersInfo arriving with an empty split_cache is buffered and reported
unhandled; when the sibling arrives, the child whose prefix matches our name
is committed as our section info and the other child survives as a neighbour,
and the call is reported handled. -/
theorem add_elders_info_split_cache :
    (∀ (s : ChainState) (info : EldersInfo) (ki : SectionKeyInfo) (proofs : AccumulatingProof),
      isExtensionOf info.pfx s.state.our_info.pfx = true →
      s.split_cache = none →
      addEldersInfo s info ki proofs =
        Except.ok (false, { s with split_cache := some ⟨info, ki, proofs⟩ })) ∧
    (∀ (s : ChainState) (cache : SplitCache) (info2 : EldersInfo) (ki2 : SectionKeyInfo)
        (p2 : AccumulatingProof) (first : XorName) (key : Nat),
      s.split_cache = some cache →
      isExtensionOf info2.pfx s.state.our_info.pfx = true →
      pfxMatches cache.elders_info.pfx s.our_name = true →
      cache.proofs.valid = true →
      cache.elders_info.members.head? = some first →
      assocLookup s.new_section_bls_keys first = some key →
      isCompatible info2.pfx cache.elders_info.pfx = false →
      ∃ s', addEldersInfo s info2 ki2 p2 = Except.ok (true, s') ∧
        s'.state.our_info = cache.elders_info ∧
        s'.state.neighbours.contains info2 = true ∧
        s'.split_cache = none) ∧
    (∀ (s : ChainState) (cache : SplitCache) (info2 : EldersInfo) (ki2 : SectionKeyInfo)
        (p2 : AccumulatingProof) (first : XorName) (key : Nat),
      s.split_cache = some cache →
      isExtensionOf info2.pfx s.state.our_info.pfx = true →
      pfxMatches cache.elders_info.pfx s.our_name = false →
      pfxMatches info2.pfx s.our_name = true →
      p2.valid = true →
      info2.members.head? = some first →
      assocLookup s.new_section_bls_keys first = some key →
      isCompatible info2.pfx cache.elders_info.pfx = false →
      ∃ s', addEldersInfo s info2 ki2 p2 = Except.ok (true, s') ∧
        s'.state.our_info = info2 ∧
        s'.state.neighbours.contains cache.elders_info = true ∧
        s'.split_cache = none) := by
  refine ⟨?_, ?_, ?_⟩
  · intro s info ki proofs hext hcache
    simp [addEldersInfo, hext, hcache]
  · intro s cache info2 ki2 p2 first key hcache hext hmatch hvalid hhead hkey hcompat
    simp [addEldersInfo, doAddEldersInfo, hext, hcache, hmatch, hvalid, hhead, hkey,
      addNeighbour, pruneNeighbours, hcompat]
  · intro s cache info2 ki2 p2 first key hcache hext hmatch hmatch2 hvalid hhead hkey hcompat
    simp [addEldersInfo, doAddEldersInfo, hext, hcache, hmatch, hvalid, hhead, hkey,
      addNeighbour, pruneNeighbours, hcompat]
    simp only [isCompatible, Bool.or_eq_false_iff] at hcompat ⊢
    exact ⟨hcompat.2, hcompat.1⟩

/-- Witness for C4: child B (prefix 1) is buffered; when child A (prefix 0,
matching our name) arrives it is committed as ours and B survives as a
neighbour. -/
theorem add_elders_info_split_cache_witness :
    (addEldersInfo splitState childInfoB childKeyInfo splitProofs =
      Except.ok (false,
        { splitState with split_cache := some ⟨childInfoB, childKeyInfo, splitProofs⟩ })) ∧
    (addEldersInfo { splitState with split_cache := some ⟨childInfoB, childKeyInfo, splitProofs⟩ }
        childInfoA childKeyInfo splitProofs = Except.ok (true, splitCommitted)) ∧
    splitCommitted.state.our_info = childInfoA ∧
    splitCommitted.state.neighbours.contains childInfoB = true ∧
    splitCommitted.split_cache = none := by
  have hfirst := add_elders_info_split_cache.1 splitState childInfoB childKeyInfo splitProofs
    (by decide) (by decide)
  have hdirect : addEldersInfo
      { splitState with split_cache := some ⟨childInfoB, childKeyInfo, splitProofs⟩ }
      childInfoA childKeyInfo splitProofs = Except.ok (true, splitCommitted) := by rfl
  obtain ⟨s', heq, h1, h2, h3⟩ := add_elders_info_split_cache.2.2
    { splitState with split_cache := some ⟨childInfoB, childKeyInfo, splitProofs⟩ }
    ⟨childInfoB, childKeyInfo, splitProofs⟩ childInfoA childKeyInfo splitProofs 3 99
    (by decide) (by decide) (by decide) (by decide) (by decide) (by decide) (by decide)
    (by decide)
  have hs : s' = splitCommitted := by
    rw [hdirect] at heq
    injection heq with hpair
    injection hpair with _ hsnd
    exact hsnd.symm
  subst hs
  exact ⟨hfirst, hdirect, h1, h2, h3⟩

/-! ## Poll-cycle lemmas -/

theorem popBack_append {α : Type} (l : List α) (x : α) : popBack (l ++ [x]) = (some x, l) := by
  induction l with
  | nil => rfl
  | cons a l ih =>
    cases hl : l ++ [x] with
    | nil => cases l <;> simp at hl
    | cons y rest =>
      have : a :: l ++ [x] = a :: y :: rest := by rw [List.cons_append, hl]
      rw [this]
      simp only [popBack]
      rw [← hl, ih]

theorem pollChurnEventBacklog_none (s : ChainState)
    (h : s.state.churn_event_backlog = [] ∨ canPollChurn s = false) :
    pollChurnEventBacklog s = (none, s) := by
  rcases h with h | h
  · simp [pollChurnEventBacklog, h, popBack]
  · simp [pollChurnEventBacklog, h]

/-- C3: poll_accumulated considers its sources in the fixed order: the churn
backlog first (gated by can_poll_churn = handled_genesis_event ∧
¬churn_in_progress), then promote/demote elders, then relocation, then the
consensus accumulator; a processed churn-type event (Online/Offline/Relocate)
is pushed to the front of the backlog and withheld exactly when churn cannot
be polled, and returned otherwise. -/
theorem poll_accumulated_priority_order :
    (∀ s : ChainState,
      canPollChurn s = (s.state.handled_genesis_event && !s.churn_in_progress)) ∧
    (∀ s : ChainState, canPollChurn s = false → pollChurnEventBacklog s = (none, s)) ∧
    (∀ (s : ChainState) (e : AccumulatedEvent) (rest : List AccumulatedEvent),
      canPollChurn s = true → s.state.churn_event_backlog = rest ++ [e] →
      pollAccumulated s = PollOutcome.ok (some (PollAccumulated.AccumulatedEv e))
        { s with state := { s.state with churn_event_backlog := rest } }) ∧
    (∀ (s s' : ChainState) (infos : List EldersInfo),
      s.state.churn_event_backlog = [] ∨ canPollChurn s = false →
      promoteAndDemoteElders s = PDResult.ok (some infos) s' →
      pollAccumulated s = PollOutcome.ok (some (PollAccumulated.PromoteDemoteElders infos)) s') ∧
    (∀ (s s1 s2 : ChainState) (d : RelocateDetails),
      s.state.churn_event_backlog = [] ∨ canPollChurn s = false →
      promoteAndDemoteElders s = PDResult.ok none s1 →
      pollRelocation s1 = (some d, s2) →
      pollAccumulated s = PollOutcome.ok (some (PollAccumulated.RelocateDet d)) s2) ∧
    (∀ (s s1 s2 s3 s4 : ChainState) (e : AccumulatingEvent) (p : AccumulatingProof)
        (ae : AccumulatedEvent),
      s.state.churn_event_backlog = [] ∨ canPollChurn s = false →
      promoteAndDemoteElders s = PDResult.ok none s1 →
      pollRelocation s1 = (none, s2) →
      pollAccumulator s2 = AccPoll.ok (some (e, p)) s3 →
      processAccumulating s3 e p = Except.ok (some ae, s4) →
      ((isStartChurnEvent ae.content = true → canPollChurn s4 = false →
        pollAccumulated s = PollOutcome.ok none
          { s4 with state :=
              { s4.state with churn_event_backlog := ae :: s4.state.churn_event_backlog } }) ∧
       (isStartChurnEvent ae.content = false ∨ canPollChurn s4 = true →
        pollAccumulated s = PollOutcome.ok (some (PollAccumulated.AccumulatedEv ae)) s4))) ∧
    (∀ ev : AccumulatingEvent, isStartChurnEvent ev = true ↔
      (∃ n a, ev = AccumulatingEvent.Online n a) ∨
      (∃ n, ev = AccumulatingEvent.Offline n) ∨
      (∃ d, ev = AccumulatingEvent.Relocate d)) := by
  refine ⟨fun s => rfl, ?_, ?_, ?_, ?_, ?_, ?_⟩
  · intro s h
    exact pollChurnEventBacklog_none s (Or.inr h)
  · intro s e rest hc hb
    have hpop : pollChurnEventBacklog s =
        (some e, { s with state := { s.state with churn_event_backlog := rest } }) := by
      simp [pollChurnEventBacklog, hc, hb, popBack_append]
    simp [pollAccumulated, hpop]
  · intro s s' infos hnone hpromote
    have h0 := pollChurnEventBacklog_none s hnone
    simp [pollAccumulated, h0, hpromote]
  · intro s s1 s2 d hnone hpromote hreloc
    have h0 := pollChurnEventBacklog_none s hnone
    simp [pollAccumulated, h0, hpromote, hreloc]
  · intro s s1 s2 s3 s4 e p ae hnone hpromote hreloc hacc hproc
    have h0 := pollChurnEventBacklog_none s hnone
    constructor
    · intro hchurn hcp
      simp [pollAccumulated, h0, hpromote, hreloc, hacc, hproc,
        checkReadyOrBacklogChurnEvent, hchurn, hcp]
    · intro hdisj
      rcases hdisj with hchurn | hcp
      · simp [pollAccumulated, h0, hpromote, hreloc, hacc, hproc,
          checkReadyOrBacklogChurnEvent, hchurn]
      · simp [pollAccumulated, h0, hpromote, hreloc, hacc, hproc,
          checkReadyOrBacklogChurnEvent, hcp]
  · intro ev
    cases ev <;> simp [isStartChurnEvent]

/-- Witness for C3: a backlogged event is drained first on a chain that can
poll churn. -/
theorem poll_accumulated_priority_order_witness :
    pollAccumulated backlogState =
      PollOutcome.ok
        (some (PollAccumulated.AccumulatedEv ⟨AccumulatingEvent.ParsecPrune⟩))
        { backlogState with state :=
            { backlogState.state with churn_event_backlog := [] } } :=
  poll_accumulated_priority_order.2.2.1 backlogState ⟨AccumulatingEvent.ParsecPrune⟩ []
    (by decide) (by decide)

end SafeNetwork
